import Mathlib

set_option maxRecDepth 8000

/-!
Verification development for the buser_simulador repository.

Tables (pandas DataFrames) are modelled as lists of rows. A trip row (one
row of the generated trip table) carries the six source columns as fixed
fields plus an association list of columns added later by in-place column
assignment. A daily-aggregate row carries the date plus an association
list of named numeric columns, since simulation.py reads aggregate columns
by name. Numeric cells are modelled as rationals (exact arithmetic) and
dates/timestamps as integers, with the same order comparisons as the code.

Pandas column assignment (df[c] = v) replaces the column when it exists
and appends it otherwise, mutating the frame in place; this is modelled by
setColList below, and the in-place effect of each simulation.py function on
the table held by the caller is modelled by the corresponding _effect
definition. Reading a missing column raises KeyError in pandas; functions
whose reads can fail return Option and yield none in that case.
-/

/-! Column-name constants, kept as definitions so that every string literal
appears in a definition body. -/

def colGMVvalor : String := "GMV_valor"

def colCashValor : String := "Cash_valor"

def colGMVbaseline : String := "GMV_baseline"

def colCashBaseline : String := "Cash_baseline"

def colGMVacum : String := "GMV_acumulado"

def colCashAcum : String := "Cash_acumulado"

def colPesoGMV : String := "Peso_GMV"

def colGMVmeta : String := "GMV_meta_diluida"

def colPesoCash : String := "Peso_Cash"

def colCashMeta : String := "Cash_meta_diluida"

def colGMVmetaAcum : String := "GMV_meta_acumulada"

def colCashMetaAcum : String := "Cash_meta_acumulada"

def rotaR1 : String := "R1"

def rotaR2 : String := "R2"

/-- Lookup of a named column in an association list of columns (first match,
as in a pandas frame where column names are unique). -/
def getColList (c : String) : List (String × ℚ) → Option ℚ
  | [] => none
  | p :: ps => if p.1 = c then some p.2 else getColList c ps

/-- Pandas column assignment on an association list: replace the column in
place when present, append it otherwise. -/
def setColList (c : String) (v : ℚ) : List (String × ℚ) → List (String × ℚ)
  | [] => [(c, v)]
  | p :: ps => if p.1 = c then (c, v) :: ps else p :: setColList c v ps

/-- One row of the trip table produced by gerar_dados (data.py lines 22 to 29):
columns Data, Rota, GMV_baseline, GMV_realizado, Cash_baseline,
Cash_realizado, plus an association list for columns assigned later. -/
structure Viagem where
  data : Int
  rota : String
  gmv_baseline : ℚ
  gmv_realizado : ℚ
  cash_baseline : ℚ
  cash_realizado : ℚ
  extra : List (String × ℚ) := []
deriving DecidableEq, Repr

def getColV (r : Viagem) (c : String) : Option ℚ :=
  getColList c r.extra

def setColV (r : Viagem) (c : String) (v : ℚ) : Viagem :=
  { r with extra := setColList c v r.extra }

/-- One row of a daily aggregate (or cumulative, or target) table: the date
plus named numeric columns, read and written by name as in simulation.py. -/
structure ARow where
  data : Int
  cols : List (String × ℚ)
deriving DecidableEq, Repr

def getCol (r : ARow) (c : String) : Option ℚ :=
  getColList c r.cols

def setCol (r : ARow) (c : String) (v : ℚ) : ARow :=
  { r with cols := setColList c v r.cols }

/-- Whether every row of the table has column c (pandas raises KeyError on a
column read when it does not). -/
def hasColA (df : List ARow) (c : String) : Bool :=
  df.all (fun r => (getCol r c).isSome)

/-- Sum of column c over the rows of the table (pandas Series.sum). -/
def sumColA (df : List ARow) (c : String) : ℚ :=
  (df.map (fun r => (getCol r c).getD 0)).sum

def hasColViagem (df : List Viagem) (c : String) : Bool :=
  df.all (fun r => (getColV r c).isSome)

def sumColViagem (df : List Viagem) (c : String) : ℚ :=
  (df.map (fun r => (getColV r c).getD 0)).sum

/-- The date order used by sort_values of the Data column. -/
def dataLe (a b : ARow) : Prop :=
  a.data ≤ b.data

instance : DecidableRel dataLe :=
  fun a b => inferInstanceAs (Decidable (a.data ≤ b.data))

instance : IsTotal ARow dataLe :=
  ⟨fun a b => Int.le_total a.data b.data⟩

instance : IsTrans ARow dataLe :=
  ⟨fun _ _ _ h h2 => le_trans h h2⟩

/-- df.sort_values of the Data column, ascending (simulation.py lines 12 and 32).
The claims that depend on row order assume pairwise-distinct dates, under
which any correct sort yields the same list; a stable insertion sort is used. -/
def sortData (df : List ARow) : List ARow :=
  List.insertionSort dataLe df

def intLe (a b : Int) : Prop :=
  a ≤ b

instance : DecidableRel intLe :=
  fun a b => inferInstanceAs (Decidable (a ≤ b))

instance : IsTotal Int intLe :=
  ⟨fun a b => Int.le_total a b⟩

instance : IsTrans Int intLe :=
  ⟨fun _ _ _ h h2 => le_trans h h2⟩

instance : IsAntisymm Int intLe :=
  ⟨fun _ _ h h2 => le_antisymm h h2⟩

def sortInts (l : List Int) : List Int :=
  List.insertionSort intLe l

/-- The effect of the Value Selector on one row: assign column GMV_valor as
GMV_realizado where Data is strictly before the cutoff and GMV_baseline
otherwise, then likewise Cash_valor (the np.where of simulation.py lines 7
and 8, applied rowwise). -/
def definirValorRow (cutoff : Int) (r : Viagem) : Viagem :=
  setColV
    (setColV r colGMVvalor (if r.data < cutoff then r.gmv_realizado else r.gmv_baseline))
    colCashValor (if r.data < cutoff then r.cash_realizado else r.cash_baseline)

/-- Value Selector, simulation.py lines 6 to 9: both column assignments mutate
the frame in place, and the frame is returned. -/
def definir_valores (df : List Viagem) (cutoff : Int) : List Viagem :=
  df.map (definirValorRow cutoff)

/-- The table held by the caller after definir_valores returns: the column
assignments of lines 7 and 8 are in place, so the caller sees the returned
table. -/
def definir_valores_effect (df : List Viagem) (cutoff : Int) : List Viagem :=
  definir_valores df cutoff

/-- One pass of a pandas cumsum assignment: walk the rows accumulating the
values of column src and assign the running total to column dst of each row. -/
def cumsumColD (src dst : String) (acc : ℚ) : List ARow → List ARow
  | [] => []
  | r :: rs =>
    setCol r dst (acc + (getCol r src).getD 0) ::
      cumsumColD src dst (acc + (getCol r src).getD 0) rs

/-- Cumulative Transformer, simulation.py lines 11 to 15: sort by Data into a
copy, assign column GMV_acumulado as the cumsum of col_gmv, then assign
column Cash_acumulado as the cumsum of col_cash read from the updated copy.
A missing source column is a pandas KeyError, modelled as none. -/
def transformar_em_acumulado (df : List ARow) (col_gmv col_cash : String) : Option (List ARow) :=
  if hasColA (sortData df) col_gmv then
    if hasColA (cumsumColD col_gmv colGMVacum 0 (sortData df)) col_cash then
      some (cumsumColD col_cash colCashAcum 0 (cumsumColD col_gmv colGMVacum 0 (sortData df)))
    else none
  else none

/-- The table held by the caller after transformar_em_acumulado returns: the
function assigns only into df.sort_values of Data followed by copy, never
into its parameter, so the caller sees the table unchanged. -/
def transformar_em_acumulado_effect (df : List ARow) (col_gmv col_cash : String) : List ARow :=
  df

/-- The GMV half of calcular_meta_diluida, simulation.py lines 18 to 23: when
the total GMV baseline is zero, assign column GMV_meta_diluida as zero
(and do not create Peso_GMV); otherwise assign Peso_GMV as the share of the
total and GMV_meta_diluida as meta_gmv times that share. -/
def metaGmvPass (df : List ARow) (meta_gmv : ℚ) : List ARow :=
  if sumColA df colGMVbaseline = 0 then df.map (fun r => setCol r colGMVmeta 0)
  else
    df.map (fun r =>
      setCol (setCol r colPesoGMV ((getCol r colGMVbaseline).getD 0 / sumColA df colGMVbaseline))
        colGMVmeta (meta_gmv * ((getCol r colGMVbaseline).getD 0 / sumColA df colGMVbaseline)))

/-- The Cash half of calcular_meta_diluida, simulation.py lines 25 to 30,
analogous to the GMV half. -/
def metaCashPass (df : List ARow) (meta_cash : ℚ) : List ARow :=
  if sumColA df colCashBaseline = 0 then df.map (fun r => setCol r colCashMeta 0)
  else
    df.map (fun r =>
      setCol (setCol r colPesoCash ((getCol r colCashBaseline).getD 0 / sumColA df colCashBaseline))
        colCashMeta (meta_cash * ((getCol r colCashBaseline).getD 0 / sumColA df colCashBaseline)))

/-- Target Dilution Engine, simulation.py lines 17 to 35: the GMV pass, the
Cash pass (reading the frame already holding the GMV columns), then a sort
by Data into a copy and cumsum assignments of GMV_meta_acumulada and
Cash_meta_acumulada. A missing baseline column is a KeyError, hence none. -/
def calcular_meta_diluida (df_agg : List ARow) (meta_gmv meta_cash : ℚ) : Option (List ARow) :=
  if hasColA df_agg colGMVbaseline then
    if hasColA (metaGmvPass df_agg meta_gmv) colCashBaseline then
      some (cumsumColD colCashMeta colCashMetaAcum 0
        (cumsumColD colGMVmeta colGMVmetaAcum 0
          (sortData (metaCashPass (metaGmvPass df_agg meta_gmv) meta_cash))))
    else none
  else none

/-- The table held by the caller after calcular_meta_diluida: lines 20 to 30
assign the weight and diluted columns into the parameter frame, while line 32
rebinds the local name to a sorted copy, so the accumulated columns of lines
33 and 34 never reach the caller. When a KeyError is raised the caller keeps
whatever columns were assigned before the raise. -/
def calcular_meta_diluida_effect (df_agg : List ARow) (meta_gmv meta_cash : ℚ) : List ARow :=
  if hasColA df_agg colGMVbaseline then
    if hasColA (metaGmvPass df_agg meta_gmv) colCashBaseline then
      metaCashPass (metaGmvPass df_agg meta_gmv) meta_cash
    else metaGmvPass df_agg meta_gmv
  else df_agg

/-- Scenario Builder, streamlit_app.py lines 156 to 163: the past rows are
those with Data less than or equal to the cutoff, the future rows those with
Data strictly greater; when the cancellation list is non-empty the future
rows whose Rota is in it are dropped. The simulated trip subset is the past
part together with the simulated future part. -/
def cenario_sim (df : List Viagem) (cutoff : Int) (rotas_canceladas : List String) : List Viagem :=
  df.filter (fun r => r.data ≤ cutoff) ++
    (if rotas_canceladas.isEmpty then df.filter (fun r => cutoff < r.data)
     else (df.filter (fun r => cutoff < r.data)).filter
       (fun r => !(rotas_canceladas.contains r.rota)))

/-- Distinct dates of a trip table in ascending order (pandas groupby of Data
sorts the group keys). -/
def datas (df : List Viagem) : List Int :=
  sortInts ((df.map (fun r => r.data)).dedup)

/-- Daily Aggregator, streamlit_app.py lines 178 to 183: group by Data and sum
GMV_valor, Cash_valor, GMV_baseline and Cash_baseline, with rows in ascending
date order. Reading a missing valor column is a KeyError, hence none. -/
def agregar_total (df : List Viagem) : Option (List ARow) :=
  if hasColViagem df colGMVvalor && hasColViagem df colCashValor then
    some ((datas df).map (fun d =>
      { data := d
        cols := [(colGMVvalor, sumColViagem (df.filter (fun r => r.data = d)) colGMVvalor),
                 (colCashValor, sumColViagem (df.filter (fun r => r.data = d)) colCashValor),
                 (colGMVbaseline, ((df.filter (fun r => r.data = d)).map (fun r => r.gmv_baseline)).sum),
                 (colCashBaseline, ((df.filter (fun r => r.data = d)).map (fun r => r.cash_baseline)).sum)] }))
  else none

/-- Baseline cumulative series of the app: Value Selector, Daily Aggregator,
Cumulative Transformer over the selected value columns (streamlit_app.py
lines 149, 178 to 183 and 192). -/
def serie_base (df : List Viagem) (cutoff : Int) : Option (List ARow) :=
  (agregar_total (definir_valores df cutoff)).bind
    (fun a => transformar_em_acumulado a colGMVvalor colCashValor)

/-- Simulated cumulative series: Scenario Builder on the selected table, then
Daily Aggregator and Cumulative Transformer (streamlit_app.py lines 156 to
163 and 212 to 216, in the spec decomposition where past and simulated
future rows form one trip subset). -/
def serie_sim (df : List Viagem) (cutoff : Int) (rotas_canceladas : List String) :
    Option (List ARow) :=
  (agregar_total (cenario_sim (definir_valores df cutoff) cutoff rotas_canceladas)).bind
    (fun a => transformar_em_acumulado a colGMVvalor colCashValor)

/-- One point of a cumulative series as consumed by the plotting layer, which
reads only the Data column and one accumulated metric column per chart
(plotting.py lines 109 to 159 for GMV and 270 to 318 for Cash). -/
structure SRow where
  data : Int
  acum : ℚ
deriving DecidableEq, Repr

/-- Projection of a cumulative table onto the two columns the plotting layer
reads for one metric. -/
def toSerie (df : List ARow) (c : String) : List SRow :=
  df.map (fun r => { data := r.data, acum := (getCol r c).getD 0 })

/-- Maximum of a non-empty list of values (pandas Series.max); the value on
the empty list is irrelevant because every use is guarded by a non-emptiness
test, as in the code. -/
def listMax : List ℚ → ℚ
  | [] => 0
  | [v] => v
  | v :: w :: vs => max v (listMax (w :: vs))

/-- The anchor of the Alignment Engine, plotting.py lines 109 to 113 (GMV) and
270 to 274 (Cash): the maximum of the accumulated column over the baseline
rows with Data strictly before check_start, or 0 when there are none. -/
def base_cutoff_val (df_base_acum : List SRow) (check_start : Int) : ℚ :=
  if (df_base_acum.filter (fun r => r.data < check_start)).isEmpty then 0
  else listMax ((df_base_acum.filter (fun r => r.data < check_start)).map (fun r => r.acum))

/-- The simulated rows from check_start on, plotting.py lines 116 and 276. -/
def sim_window (df_sim_acum : List SRow) (check_start : Int) : List SRow :=
  df_sim_acum.filter (fun r => check_start ≤ r.data)

/-- The displayed (aligned) simulated series, plotting.py lines 118 to 137 and
278 to 290: with no cancelled route each window row keeps its own accumulated
value; otherwise every window row is re-based to the anchor plus its offset
from the first window row. An empty window yields an empty series. -/
def acumulado_alinhado (df_base_acum df_sim_acum : List SRow) (check_start : Int)
    (rotas_canceladas : List String) : List (Int × ℚ) :=
  if rotas_canceladas.isEmpty then
    (sim_window df_sim_acum check_start).map (fun r => (r.data, r.acum))
  else
    match sim_window df_sim_acum check_start with
    | [] => []
    | r0 :: rest =>
      (r0 :: rest).map (fun r =>
        (r.data, base_cutoff_val df_base_acum check_start + (r.acum - r0.acum)))

/-- One row of the accumulated-difference table df_diff_acum of
streamlit_app.py lines 232 to 241: the date, the baseline accumulated value,
the simulated accumulated value when a simulated row matched the date (none
models the NaN of an unmatched left join) and their difference. -/
structure DRow where
  data : Int
  acum : ℚ
  acum_sim : Option ℚ
  diferenca : Option ℚ
deriving DecidableEq, Repr

/-- Value at a date in a series, as produced for that date by a left merge on
Data: the first row carrying the date, none when there is no such row. -/
def lookupAcum (df : List SRow) (d : Int) : Option ℚ :=
  (df.find? (fun r => r.data = d)).map (fun r => r.acum)

/-- The accumulated-difference table, streamlit_app.py lines 232 to 241: one
row per baseline date strictly after the cutoff, left-joined with the
simulated series restricted to dates strictly after the cutoff; the
difference is simulated minus baseline and is NaN (none) without a match. -/
def diff_acum (df_total_acum df_sim_acum : List SRow) (cutoff : Int) : List DRow :=
  (df_total_acum.filter (fun r => cutoff < r.data)).map (fun r =>
    { data := r.data, acum := r.acum,
      acum_sim := lookupAcum (df_sim_acum.filter (fun r2 => cutoff < r2.data)) r.data,
      diferenca := (lookupAcum (df_sim_acum.filter (fun r2 => cutoff < r2.data)) r.data).map
        (fun v => v - r.acum) })

/-- Value at a date in the displayed simulated series, as produced by the left
merge of plotting.py lines 152 to 156. -/
def lookupAlinhado (w : List (Int × ℚ)) (d : Int) : Option ℚ :=
  (w.find? (fun p => p.1 = d)).map (fun p => p.2)

/-- The aligned divergence series, plotting.py lines 148 to 159 and 300 to 310:
restrict the difference table to dates at or after check_start; when both it
and the simulated window are non-empty, left-merge the displayed simulated
value by date and subtract the baseline accumulated value; otherwise fall
back to the precomputed difference column. -/
def diferenca_alinhada (df_diff : List DRow) (df_base_acum df_sim_acum : List SRow)
    (check_start : Int) (rotas_canceladas : List String) : List (Int × Option ℚ) :=
  if !(df_diff.filter (fun r => check_start ≤ r.data)).isEmpty &&
      !(sim_window df_sim_acum check_start).isEmpty then
    (df_diff.filter (fun r => check_start ≤ r.data)).map (fun r =>
      (r.data,
        (lookupAlinhado (acumulado_alinhado df_base_acum df_sim_acum check_start rotas_canceladas)
          r.data).map (fun a => a - r.acum)))
  else (df_diff.filter (fun r => check_start ≤ r.data)).map (fun r => (r.data, r.diferenca))

/-- The divergence pipeline end to end for one metric: the difference table of
the app composed with the aligned divergence of the plotting layer. -/
def divergencia (df_base_acum df_sim_acum : List SRow) (cutoff check_start : Int)
    (rotas_canceladas : List String) : List (Int × Option ℚ) :=
  diferenca_alinhada (diff_acum df_base_acum df_sim_acum cutoff)
    df_base_acum df_sim_acum check_start rotas_canceladas

/-- Value of the last row of a series, 0 when empty. -/
def lastAcum : List SRow → ℚ
  | [] => 0
  | [r] => r.acum
  | _ :: r :: rs => lastAcum (r :: rs)

/-- Modelled from the spec: the accumulated value up to the decision window,
that is the cumulative value at the latest date strictly before check_start,
or 0 when no such date exists. For a series sorted ascending by date (the
invariant of every cumulative series in the system) the row at the latest
date strictly before check_start is the last row of the filtered prefix. -/
def acum_ate_janela (df_base_acum : List SRow) (check_start : Int) : ℚ :=
  lastAcum (df_base_acum.filter (fun r => r.data < check_start))

/-! Concrete rows and tables used by the counterexamples and witnesses. -/

def viagemA : Viagem :=
  { data := 0, rota := rotaR1, gmv_baseline := 10, gmv_realizado := 12,
    cash_baseline := 5, cash_realizado := 4 }

def viagemB : Viagem :=
  { data := 2, rota := rotaR2, gmv_baseline := 7, gmv_realizado := 8,
    cash_baseline := -3, cash_realizado := -2 }

/-- A daily aggregate table whose Cash value on the second day is negative, so
its cumulative Cash series is not monotone: per-day Cash 100 then -50. -/
def aggNeg : List ARow :=
  [{ data := 0, cols := [(colGMVvalor, 100), (colCashValor, 100)] },
   { data := 1, cols := [(colGMVvalor, 1), (colCashValor, -50)] }]

/-- The Cash cumulative series of aggNeg: 100 then 50. -/
def serieNeg : List SRow :=
  [{ data := 0, acum := 100 }, { data := 1, acum := 50 }]

/-- A date-sorted cumulative series with nondecreasing values. -/
def serieMono : List SRow :=
  [{ data := 0, acum := 10 }, { data := 1, acum := 30 }]

/-- A baseline cumulative series on days 0, 1, 2. -/
def serieBaseW : List SRow :=
  [{ data := 0, acum := 10 }, { data := 1, acum := 20 }, { data := 2, acum := 30 }]

/-- A simulated cumulative series on days 0, 1, 2. -/
def serieSimW : List SRow :=
  [{ data := 0, acum := 10 }, { data := 1, acum := 15 }, { data := 2, acum := 18 }]

/-- A two-day aggregate table, listed out of date order, with a negative Cash
value. -/
def aggW : List ARow :=
  [{ data := 1, cols := [(colGMVvalor, 2), (colCashValor, -5)] },
   { data := 0, cols := [(colGMVvalor, 3), (colCashValor, 4)] }]

/-- A two-day aggregate table with baseline columns: total GMV baseline 4
(non-zero), total Cash baseline 0. -/
def aggM : List ARow :=
  [{ data := 0, cols := [(colGMVbaseline, 1), (colCashBaseline, 5)] },
   { data := 1, cols := [(colGMVbaseline, 3), (colCashBaseline, -5)] }]

/-! Helper lemmas about column access and assignment. -/

theorem getColList_set_self (c : String) (v : ℚ) (l : List (String × ℚ)) :
    getColList c (setColList c v l) = some v := by
  induction l with
  | nil => simp [getColList, setColList]
  | cons p ps ih =>
    by_cases h : p.1 = c
    · simp [setColList, h, getColList]
    · simp [setColList, h, getColList, ih]

theorem getColList_set_ne (c c2 : String) (h : c2 ≠ c) (v : ℚ) (l : List (String × ℚ)) :
    getColList c2 (setColList c v l) = getColList c2 l := by
  induction l with
  | nil => simp [getColList, setColList, Ne.symm h]
  | cons p ps ih =>
    by_cases hp : p.1 = c
    · have hp2 : ¬ p.1 = c2 := by rw [hp]; exact Ne.symm h
      simp [setColList, hp, getColList, Ne.symm h, hp2]
    · simp only [setColList, hp, if_false, getColList]
      by_cases hq : p.1 = c2
      · simp [hq]
      · simp [hq, ih]

theorem getCol_setCol_self (r : ARow) (c : String) (v : ℚ) :
    getCol (setCol r c v) c = some v :=
  getColList_set_self c v r.cols

theorem getCol_setCol_ne (r : ARow) (c c2 : String) (h : c2 ≠ c) (v : ℚ) :
    getCol (setCol r c v) c2 = getCol r c2 :=
  getColList_set_ne c c2 h v r.cols

theorem setCol_data (r : ARow) (c : String) (v : ℚ) : (setCol r c v).data = r.data :=
  rfl

theorem getColV_setColV_self (r : Viagem) (c : String) (v : ℚ) :
    getColV (setColV r c v) c = some v :=
  getColList_set_self c v r.extra

theorem getColV_setColV_ne (r : Viagem) (c c2 : String) (h : c2 ≠ c) (v : ℚ) :
    getColV (setColV r c v) c2 = getColV r c2 :=
  getColList_set_ne c c2 h v r.extra

/-! Helper lemmas about one cumsum column assignment. -/

theorem cumsumColD_map_data (src dst : String) (acc : ℚ) (l : List ARow) :
    (cumsumColD src dst acc l).map (fun r => r.data) = l.map (fun r => r.data) := by
  induction l generalizing acc with
  | nil => rfl
  | cons x xs ih => simp [cumsumColD, setCol_data, ih]

theorem cumsumColD_map_getCol (src dst c : String) (h : c ≠ dst) (acc : ℚ) (l : List ARow) :
    (cumsumColD src dst acc l).map (fun r => getCol r c) = l.map (fun r => getCol r c) := by
  induction l generalizing acc with
  | nil => rfl
  | cons x xs ih => simp [cumsumColD, getCol_setCol_ne _ _ _ h, ih]

theorem cumsumColD_val (src dst : String) (l : List ARow)
    (hs : List.Pairwise (fun a b : ARow => a.data < b.data) l) :
    ∀ (acc : ℚ), ∀ r ∈ cumsumColD src dst acc l,
      getCol r dst = some (acc + sumColA (l.filter (fun x => x.data ≤ r.data)) src) := by
  induction l with
  | nil => intro acc r hr; simp [cumsumColD] at hr
  | cons x xs ih =>
    rw [List.pairwise_cons] at hs
    intro acc r hr
    rcases List.mem_cons.mp hr with h | h
    · subst h
      rw [getCol_setCol_self, setCol_data]
      have hxs : xs.filter (fun t => t.data ≤ x.data) = [] := by
        rw [List.filter_eq_nil_iff]
        intro y hy
        simpa using not_le.mpr (hs.1 y hy)
      rw [List.filter_cons_of_pos (by simp), hxs]
      simp [sumColA]
    · have hdmem : r.data ∈ (cumsumColD src dst (acc + (getCol x src).getD 0) xs).map
          (fun t => t.data) := List.mem_map_of_mem _ h
      rw [cumsumColD_map_data] at hdmem
      obtain ⟨y, hy, hyd⟩ := List.mem_map.mp hdmem
      have hxr : x.data ≤ r.data := le_of_lt (hyd ▸ hs.1 y hy)
      have := ih hs.2 (acc + (getCol x src).getD 0) r h
      rw [this, List.filter_cons_of_pos (by simpa using hxr)]
      simp [sumColA, add_assoc]

/-! Helper lemmas about sorting and permutations. -/

theorem sortData_perm (df : List ARow) : List.Perm (sortData df) df :=
  List.perm_insertionSort dataLe df

theorem sortData_sorted (df : List ARow) : List.Pairwise dataLe (sortData df) :=
  List.sorted_insertionSort dataLe df

theorem sortData_sorted_strict (df : List ARow) (hnd : (df.map (fun r => r.data)).Nodup) :
    List.Pairwise (fun a b : ARow => a.data < b.data) (sortData df) := by
  have h1 : List.Pairwise dataLe (sortData df) := sortData_sorted df
  have h2 : ((sortData df).map (fun r => r.data)).Nodup :=
    (((sortData_perm df).map (fun r => r.data)).nodup_iff).mpr hnd
  have h3 : List.Pairwise (fun a b : ARow => a.data ≠ b.data) (sortData df) :=
    List.pairwise_map.mp h2
  exact (h1.and h3).imp (fun h => lt_of_le_of_ne h.1 h.2)

theorem sumColA_perm (c : String) {l l2 : List ARow} (h : List.Perm l l2) :
    sumColA l c = sumColA l2 c :=
  (h.map (fun r => (getCol r c).getD 0)).sum_eq

theorem hasColA_perm (c : String) {l l2 : List ARow} (h : List.Perm l l2) :
    hasColA l c = hasColA l2 c := by
  unfold hasColA
  rw [Bool.eq_iff_iff]
  simp only [List.all_eq_true]
  exact ⟨fun hx r hr => hx r (h.mem_iff.mpr hr), fun hx r hr => hx r (h.mem_iff.mp hr)⟩

theorem hasColViagem_perm (c : String) {l l2 : List Viagem} (h : List.Perm l l2) :
    hasColViagem l c = hasColViagem l2 c := by
  unfold hasColViagem
  rw [Bool.eq_iff_iff]
  simp only [List.all_eq_true]
  exact ⟨fun hx r hr => hx r (h.mem_iff.mpr hr), fun hx r hr => hx r (h.mem_iff.mp hr)⟩

theorem datas_perm {l l2 : List Viagem} (h : List.Perm l l2) : datas l = datas l2 := by
  unfold datas sortInts
  refine List.eq_of_perm_of_sorted ?_ (List.sorted_insertionSort _ _)
    (List.sorted_insertionSort _ _)
  exact (List.perm_insertionSort _ _).trans
    (((h.map (fun r => r.data)).dedup).trans (List.perm_insertionSort _ _).symm)

theorem agregar_total_perm {l l2 : List Viagem} (h : List.Perm l l2) :
    agregar_total l = agregar_total l2 := by
  unfold agregar_total
  rw [hasColViagem_perm colGMVvalor h, hasColViagem_perm colCashValor h, datas_perm h]
  by_cases hg : (hasColViagem l2 colGMVvalor && hasColViagem l2 colCashValor) = true
  · rw [if_pos hg, if_pos hg]
    congr 1
    apply List.map_congr_left
    intro d _
    have hp : List.Perm (l.filter (fun r => r.data = d)) (l2.filter (fun r => r.data = d)) :=
      h.filter _
    have h1 : sumColViagem (l.filter (fun r => r.data = d)) colGMVvalor =
        sumColViagem (l2.filter (fun r => r.data = d)) colGMVvalor :=
      (hp.map (fun r => (getColV r colGMVvalor).getD 0)).sum_eq
    have h2 : sumColViagem (l.filter (fun r => r.data = d)) colCashValor =
        sumColViagem (l2.filter (fun r => r.data = d)) colCashValor :=
      (hp.map (fun r => (getColV r colCashValor).getD 0)).sum_eq
    have h3 : ((l.filter (fun r => r.data = d)).map (fun r => r.gmv_baseline)).sum =
        ((l2.filter (fun r => r.data = d)).map (fun r => r.gmv_baseline)).sum :=
      (hp.map (fun r => r.gmv_baseline)).sum_eq
    have h4 : ((l.filter (fun r => r.data = d)).map (fun r => r.cash_baseline)).sum =
        ((l2.filter (fun r => r.data = d)).map (fun r => r.cash_baseline)).sum :=
      (hp.map (fun r => r.cash_baseline)).sum_eq
    rw [h1, h2, h3, h4]
  · rw [if_neg hg, if_neg hg]

theorem cenario_sim_perm_nil (df : List Viagem) (cutoff : Int) :
    List.Perm (cenario_sim df cutoff []) df := by
  unfold cenario_sim
  simp only [List.isEmpty_nil, if_true]
  have hq : (df.filter (fun r => decide (cutoff < r.data))) =
      df.filter (fun r => !(decide (r.data ≤ cutoff))) := by
    apply List.filter_congr
    intro r _
    rw [← decide_not]
    exact decide_eq_decide.mpr (by omega)
  rw [hq]
  exact List.filter_append_perm _ df

/-! Transfer lemmas between lists whose row projections agree pointwise. -/

theorem mem_transfer {α : Type} {β γ : Type} (f : α → β) (g : α → γ) (l l2 : List α)
    (hf : l.map f = l2.map f) (hg : l.map g = l2.map g) :
    ∀ r ∈ l, ∃ r2 ∈ l2, f r = f r2 ∧ g r = g r2 := by
  induction l generalizing l2 with
  | nil => intro r hr; simp at hr
  | cons x xs ih =>
    cases l2 with
    | nil => simp at hf
    | cons y ys =>
      simp only [List.map_cons, List.cons.injEq] at hf hg
      intro r hr
      rcases List.mem_cons.mp hr with h | h
      · exact ⟨y, List.mem_cons_self y ys, h ▸ hf.1, h ▸ hg.1⟩
      · obtain ⟨r2, hr2, h1, h2⟩ := ih ys hf.2 hg.2 r h
        exact ⟨r2, List.mem_cons_of_mem y hr2, h1, h2⟩

theorem sumColA_filter_transfer (c : String) (d : Int) (l l2 : List ARow)
    (hd : l.map (fun r => r.data) = l2.map (fun r => r.data))
    (hc : l.map (fun r => getCol r c) = l2.map (fun r => getCol r c)) :
    sumColA (l.filter (fun x => x.data ≤ d)) c =
      sumColA (l2.filter (fun x => x.data ≤ d)) c := by
  induction l generalizing l2 with
  | nil =>
    cases l2 with
    | nil => rfl
    | cons => simp at hd
  | cons x xs ih =>
    cases l2 with
    | nil => simp at hd
    | cons y ys =>
      simp only [List.map_cons, List.cons.injEq] at hd hc
      by_cases hle : x.data ≤ d
      · rw [List.filter_cons_of_pos (by simpa using hle),
          List.filter_cons_of_pos (by simp [← hd.1]; exact hle)]
        have hrec := ih ys hd.2 hc.2
        simp only [sumColA, List.map_cons, List.sum_cons] at hrec ⊢
        rw [hc.1, hrec]
      · rw [List.filter_cons_of_neg (by simpa using hle),
          List.filter_cons_of_neg (by simp [← hd.1]; omega)]
        exact ih ys hd.2 hc.2

theorem hasColA_eq_of_map (c : String) {l l2 : List ARow}
    (h : l.map (fun r => getCol r c) = l2.map (fun r => getCol r c)) :
    hasColA l c = hasColA l2 c := by
  induction l generalizing l2 with
  | nil =>
    cases l2 with
    | nil => rfl
    | cons => simp at h
  | cons x xs ih =>
    cases l2 with
    | nil => simp at h
    | cons y ys =>
      simp only [List.map_cons, List.cons.injEq] at h
      have hrec := ih h.2
      unfold hasColA at hrec ⊢
      simp only [List.all_cons]
      rw [h.1, hrec]

theorem sumColA_eq_of_map (c : String) {l l2 : List ARow}
    (h : l.map (fun r => getCol r c) = l2.map (fun r => getCol r c)) :
    sumColA l c = sumColA l2 c := by
  unfold sumColA
  have h2 : l.map (fun r => (getCol r c).getD 0) = l2.map (fun r => (getCol r c).getD 0) := by
    have h3 := congrArg (List.map (fun o : Option ℚ => o.getD 0)) h
    simpa [List.map_map, Function.comp] using h3
  rw [h2]

/-! Helper lemmas about the two passes of the Target Dilution Engine. -/

theorem metaGmvPass_map_data (df : List ARow) (m : ℚ) :
    (metaGmvPass df m).map (fun r => r.data) = df.map (fun r => r.data) := by
  unfold metaGmvPass
  by_cases h : sumColA df colGMVbaseline = 0 <;>
    simp [h, List.map_map, Function.comp, setCol_data]

theorem metaCashPass_map_data (df : List ARow) (m : ℚ) :
    (metaCashPass df m).map (fun r => r.data) = df.map (fun r => r.data) := by
  unfold metaCashPass
  by_cases h : sumColA df colCashBaseline = 0 <;>
    simp [h, List.map_map, Function.comp, setCol_data]

theorem metaGmvPass_map_getCol (df : List ARow) (m : ℚ) (c : String)
    (h1 : c ≠ colPesoGMV) (h2 : c ≠ colGMVmeta) :
    (metaGmvPass df m).map (fun r => getCol r c) = df.map (fun r => getCol r c) := by
  unfold metaGmvPass
  by_cases h : sumColA df colGMVbaseline = 0 <;>
    simp [h, List.map_map, Function.comp, getCol_setCol_ne _ _ _ h1,
      getCol_setCol_ne _ _ _ h2]

theorem metaCashPass_map_getCol (df : List ARow) (m : ℚ) (c : String)
    (h1 : c ≠ colPesoCash) (h2 : c ≠ colCashMeta) :
    (metaCashPass df m).map (fun r => getCol r c) = df.map (fun r => getCol r c) := by
  unfold metaCashPass
  by_cases h : sumColA df colCashBaseline = 0 <;>
    simp [h, List.map_map, Function.comp, getCol_setCol_ne _ _ _ h1,
      getCol_setCol_ne _ _ _ h2]

/-! Claim theorems. -/

/-- Claim C7 (confirmed): for every trip row and cutover, the Value Selector
gives the row selected GMV and Cash equal to the realized figures when the
trip date is strictly before the cutover and to the baseline figures
otherwise; in particular a trip dated exactly at the cutover receives its
baseline figures. -/
theorem C7_valor_por_viagem (df : List Viagem) (cutoff : Int) (r : Viagem) (hr : r ∈ df) :
    definirValorRow cutoff r ∈ definir_valores df cutoff ∧
    (definirValorRow cutoff r).data = r.data ∧
    (definirValorRow cutoff r).rota = r.rota ∧
    getColV (definirValorRow cutoff r) colGMVvalor =
      some (if r.data < cutoff then r.gmv_realizado else r.gmv_baseline) ∧
    getColV (definirValorRow cutoff r) colCashValor =
      some (if r.data < cutoff then r.cash_realizado else r.cash_baseline) ∧
    (r.data = cutoff →
      getColV (definirValorRow cutoff r) colGMVvalor = some r.gmv_baseline ∧
      getColV (definirValorRow cutoff r) colCashValor = some r.cash_baseline) := by
  have hgmv : getColV (definirValorRow cutoff r) colGMVvalor =
      some (if r.data < cutoff then r.gmv_realizado else r.gmv_baseline) := by
    unfold definirValorRow
    rw [getColV_setColV_ne _ _ _ (by decide), getColV_setColV_self]
  have hcash : getColV (definirValorRow cutoff r) colCashValor =
      some (if r.data < cutoff then r.cash_realizado else r.cash_baseline) := by
    unfold definirValorRow
    rw [getColV_setColV_self]
  refine ⟨List.mem_map_of_mem _ hr, rfl, rfl, hgmv, hcash, fun h => ⟨?_, ?_⟩⟩
  · rw [hgmv, if_neg (by omega)]
  · rw [hcash, if_neg (by omega)]

/-- Witness for C7 at a concrete trip dated exactly at the cutover. -/
theorem C7_witness :
    definirValorRow 0 viagemA ∈ definir_valores [viagemA] 0 ∧
    getColV (definirValorRow 0 viagemA) colGMVvalor = some viagemA.gmv_baseline ∧
    getColV (definirValorRow 0 viagemA) colCashValor = some viagemA.cash_baseline := by
  have h := C7_valor_por_viagem [viagemA] 0 viagemA (List.mem_singleton.mpr rfl)
  exact ⟨h.1, (h.2.2.2.2.2 rfl).1, (h.2.2.2.2.2 rfl).2⟩

/-- Claim C2 counterexample: a trip dated exactly at the cutover whose route is
cancelled is kept, not excluded: the code puts Data equal to the cutoff in the
past partition (comparison Data less than or equal to cutoff at
streamlit_app.py line 156), so the cancellation filter never sees it. -/
theorem C2_counterexample :
    viagemA.data = 0 ∧ [rotaR1].contains viagemA.rota = true ∧
    cenario_sim [viagemA] 0 [rotaR1] = [viagemA] := by
  refine ⟨rfl, by decide, ?_⟩
  simp [cenario_sim, viagemA]

/-- Claim C2 amended (the boundary direction is reversed relative to the
claim): the simulated trip subset is identical to the full table for trips
dated at or before the cutover, excludes exactly the rows on cancelled routes
among trips dated strictly after the cutover, and a trip dated exactly at the
cutover is always kept, cancelled route or not. -/
theorem C2_cenario (df : List Viagem) (cutoff : Int) (rotas_canceladas : List String) :
    (cenario_sim df cutoff rotas_canceladas).filter (fun r => r.data ≤ cutoff) =
      df.filter (fun r => r.data ≤ cutoff) ∧
    (cenario_sim df cutoff rotas_canceladas).filter (fun r => cutoff < r.data) =
      df.filter (fun r => cutoff < r.data && !(rotas_canceladas.contains r.rota)) ∧
    ∀ r ∈ df, r.data = cutoff → r ∈ cenario_sim df cutoff rotas_canceladas := by
  have hBfut : ∀ r ∈ (if rotas_canceladas.isEmpty then
      df.filter (fun r => cutoff < r.data)
      else (df.filter (fun r => cutoff < r.data)).filter
        (fun r => !(rotas_canceladas.contains r.rota))), cutoff < r.data := by
    intro r hr
    by_cases hc : rotas_canceladas.isEmpty
    · rw [if_pos hc] at hr
      simpa using (List.mem_filter.mp hr).2
    · rw [if_neg hc] at hr
      simpa using (List.mem_filter.mp (List.mem_filter.mp hr).1).2
  refine ⟨?_, ?_, ?_⟩
  · unfold cenario_sim
    rw [List.filter_append]
    have h1 : (df.filter (fun r => r.data ≤ cutoff)).filter (fun r => r.data ≤ cutoff) =
        df.filter (fun r => r.data ≤ cutoff) :=
      List.filter_eq_self.mpr (fun r hr => (List.mem_filter.mp hr).2)
    have h2 : (if rotas_canceladas.isEmpty then df.filter (fun r => cutoff < r.data)
        else (df.filter (fun r => cutoff < r.data)).filter
          (fun r => !(rotas_canceladas.contains r.rota))).filter
        (fun r => r.data ≤ cutoff) = [] := by
      rw [List.filter_eq_nil_iff]
      intro r hr
      have := hBfut r hr
      simp
      omega
    rw [h1, h2, List.append_nil]
  · unfold cenario_sim
    rw [List.filter_append]
    have h1 : (df.filter (fun r => r.data ≤ cutoff)).filter (fun r => cutoff < r.data) = [] := by
      rw [List.filter_eq_nil_iff]
      intro r hr
      have := (List.mem_filter.mp hr).2
      simp at this ⊢
      omega
    have h2 : (if rotas_canceladas.isEmpty then df.filter (fun r => cutoff < r.data)
        else (df.filter (fun r => cutoff < r.data)).filter
          (fun r => !(rotas_canceladas.contains r.rota))).filter
        (fun r => cutoff < r.data) =
        (if rotas_canceladas.isEmpty then df.filter (fun r => cutoff < r.data)
        else (df.filter (fun r => cutoff < r.data)).filter
          (fun r => !(rotas_canceladas.contains r.rota))) :=
      List.filter_eq_self.mpr (fun r hr => by simpa using hBfut r hr)
    rw [h1, h2, List.nil_append]
    by_cases hc : rotas_canceladas.isEmpty
    · rw [if_pos hc]
      rw [List.isEmpty_iff] at hc
      subst hc
      apply List.filter_congr
      intro r _
      simp [List.contains]
    · rw [if_neg hc, List.filter_filter]
      apply List.filter_congr
      intro r _
      rw [Bool.and_comm]
  · intro r hr h
    unfold cenario_sim
    exact List.mem_append_left _ (List.mem_filter.mpr ⟨hr, by simp [h]⟩)

/-- Witness for the amended C2: the boundary trip on a cancelled route is in
the simulated subset. -/
theorem C2_witness : viagemA ∈ cenario_sim [viagemA] 0 [rotaR1] :=
  (C2_cenario [viagemA] 0 [rotaR1]).2.2 viagemA (List.mem_singleton.mpr rfl) rfl

/-- Claim C9 counterexample: the Value Selector is not pure over its input:
the column assignments of simulation.py lines 7 and 8 go into the caller
frame, so after the call the caller table carries the two new columns and
differs from the input. -/
theorem C9_counterexample : definir_valores_effect [viagemA] 1 ≠ [viagemA] := by
  intro h
  have h2 := congrArg (fun l => l.map (fun r => (getColV r colGMVvalor).isSome)) h
  have h3 : (definir_valores_effect [viagemA] 1).map
      (fun r => (getColV r colGMVvalor).isSome) = [true] := by
    unfold definir_valores_effect definir_valores
    simp only [List.map_cons, List.map_nil, List.cons.injEq, and_true]
    unfold definirValorRow
    rw [getColV_setColV_ne _ _ _ (by decide), getColV_setColV_self]
    rfl
  have h4 : ([viagemA].map (fun r => (getColV r colGMVvalor).isSome)) = [false] := rfl
  simp only [h3, h4] at h2
  simp at h2

/-- Claim C9 amended: the Cumulative Transformer leaves the caller table
untouched, while the Value Selector and the Target Dilution Engine mutate the
caller table in place, but only by writing their own derived columns
(GMV_valor and Cash_valor; Peso_GMV, GMV_meta_diluida, Peso_Cash and
Cash_meta_diluida, the accumulated target columns reaching only the returned
sorted copy): row order, dates, the fixed trip fields and every other column
value are preserved. -/
theorem C9_pure_e_efeitos :
    (∀ (df : List ARow) (col_gmv col_cash : String),
      transformar_em_acumulado_effect df col_gmv col_cash = df) ∧
    (∀ (df : List Viagem) (cutoff : Int),
      (definir_valores_effect df cutoff).map
          (fun r => (r.data, r.rota, r.gmv_baseline, r.gmv_realizado, r.cash_baseline,
            r.cash_realizado)) =
        df.map (fun r => (r.data, r.rota, r.gmv_baseline, r.gmv_realizado, r.cash_baseline,
          r.cash_realizado)) ∧
      ∀ c, c ≠ colGMVvalor → c ≠ colCashValor →
        (definir_valores_effect df cutoff).map (fun r => getColV r c) =
          df.map (fun r => getColV r c)) ∧
    (∀ (df_agg : List ARow) (meta_gmv meta_cash : ℚ),
      (calcular_meta_diluida_effect df_agg meta_gmv meta_cash).map (fun r => r.data) =
        df_agg.map (fun r => r.data) ∧
      ∀ c, c ≠ colPesoGMV → c ≠ colGMVmeta → c ≠ colPesoCash → c ≠ colCashMeta →
        (calcular_meta_diluida_effect df_agg meta_gmv meta_cash).map (fun r => getCol r c) =
          df_agg.map (fun r => getCol r c)) := by
  refine ⟨fun _ _ _ => rfl, fun df cutoff => ⟨?_, ?_⟩, fun df_agg mg mc => ⟨?_, ?_⟩⟩
  · unfold definir_valores_effect definir_valores
    rw [List.map_map]
    apply List.map_congr_left
    intro r _
    rfl
  · intro c h1 h2
    unfold definir_valores_effect definir_valores
    rw [List.map_map]
    apply List.map_congr_left
    intro r _
    show getColV (definirValorRow cutoff r) c = getColV r c
    unfold definirValorRow
    rw [getColV_setColV_ne _ _ _ h2, getColV_setColV_ne _ _ _ h1]
  · unfold calcular_meta_diluida_effect
    split_ifs with hg hc
    · rw [metaCashPass_map_data, metaGmvPass_map_data]
    · rw [metaGmvPass_map_data]
    · rfl
  · intro c h1 h2 h3 h4
    unfold calcular_meta_diluida_effect
    split_ifs with hg hc
    · rw [metaCashPass_map_getCol _ _ _ h3 h4, metaGmvPass_map_getCol _ _ _ h1 h2]
    · rw [metaGmvPass_map_getCol _ _ _ h1 h2]
    · rfl

/-- Witness for the amended C9 at concrete tables. -/
theorem C9_witness :
    transformar_em_acumulado_effect aggW colGMVvalor colCashValor = aggW ∧
    (definir_valores_effect [viagemA] 1).map (fun r => getColV r colGMVbaseline) =
      [viagemA].map (fun r => getColV r colGMVbaseline) ∧
    (calcular_meta_diluida_effect aggM 8 3).map (fun r => getCol r colGMVbaseline) =
      aggM.map (fun r => getCol r colGMVbaseline) := by
  refine ⟨C9_pure_e_efeitos.1 aggW colGMVvalor colCashValor, ?_, ?_⟩
  · exact (C9_pure_e_efeitos.2.1 [viagemA] 1).2 colGMVbaseline (by decide) (by decide)
  · exact (C9_pure_e_efeitos.2.2 aggM 8 3).2 colGMVbaseline (by decide) (by decide)
      (by decide) (by decide)

/-- Claim C3 (confirmed): with an empty cancellation set the simulated
cumulative series (Scenario Builder, then Daily Aggregator, then Cumulative
Transformer) equals the baseline cumulative series cell for cell, and the
no-cancellation branch of the Alignment Engine displays every window date
with its own simulated cumulative value unchanged. -/
theorem C3_identidade_sem_cancelamento (df : List Viagem) (cutoff : Int)
    (df_base_acum df_sim_acum : List SRow) (check_start : Int) :
    serie_sim df cutoff [] = serie_base df cutoff ∧
    acumulado_alinhado df_base_acum df_sim_acum check_start [] =
      (sim_window df_sim_acum check_start).map (fun r => (r.data, r.acum)) := by
  constructor
  · unfold serie_sim serie_base
    rw [agregar_total_perm (cenario_sim_perm_nil (definir_valores df cutoff) cutoff)]
  · unfold acumulado_alinhado
    simp only [List.isEmpty_nil, if_true]

/-! Inequalities between column names, proved once and fed to simp when a
concrete table is evaluated. -/

theorem ne_gv_cv : colGMVvalor ≠ colCashValor := by decide

theorem ne_gv_ga : colGMVvalor ≠ colGMVacum := by decide

theorem ne_cv_ga : colCashValor ≠ colGMVacum := by decide

theorem ne_gv_ca : colGMVvalor ≠ colCashAcum := by decide

theorem ne_cv_ca : colCashValor ≠ colCashAcum := by decide

theorem ne_ga_ca : colGMVacum ≠ colCashAcum := by decide

/-- Evaluation of the Cumulative Transformer on the concrete table aggW, used
by the witnesses below. -/
theorem aggW_eval :
    transformar_em_acumulado aggW colGMVvalor colCashValor =
      some [{ data := 0, cols := [(colGMVvalor, 3), (colCashValor, 4),
                (colGMVacum, 3), (colCashAcum, 4)] },
            { data := 1, cols := [(colGMVvalor, 2), (colCashValor, -5),
                (colGMVacum, 5), (colCashAcum, -1)] }] := by
  norm_num [transformar_em_acumulado, hasColA, sortData, dataLe, List.insertionSort,
    List.orderedInsert, cumsumColD, getCol, setCol, getColList, setColList, aggW,
    ne_gv_cv, ne_gv_ga, ne_cv_ga, ne_gv_ca, ne_cv_ca, ne_ga_ca]

/-- Claim C5 (confirmed): for a daily aggregate table with pairwise-distinct
dates and per-date values of arbitrary sign (Cash may be negative), every row
of the Cumulative Transformer output carries, in each accumulated column,
exactly the sum of the corresponding per-date source values over the rows of
the input table with date at most the row date. The second cumsum reads
col_cash from the frame already holding GMV_acumulado, so col_cash must not
be that name for its source values to be those of the input table. -/
theorem C5_acumulado_exato (df : List ARow) (col_gmv col_cash : String) (out : List ARow)
    (hnd : (df.map (fun r => r.data)).Nodup)
    (hcc : col_cash ≠ colGMVacum)
    (h : transformar_em_acumulado df col_gmv col_cash = some out) :
    ∀ r ∈ out,
      getCol r colGMVacum = some (sumColA (df.filter (fun x => x.data ≤ r.data)) col_gmv) ∧
      getCol r colCashAcum = some (sumColA (df.filter (fun x => x.data ≤ r.data)) col_cash) := by
  unfold transformar_em_acumulado at h
  split_ifs at h with h1 h2
  · have hout := Option.some.inj h
    subst hout
    have hs : List.Pairwise (fun a b : ARow => a.data < b.data) (sortData df) :=
      sortData_sorted_strict df hnd
    have hs1 : List.Pairwise (fun a b : ARow => a.data < b.data)
        (cumsumColD col_gmv colGMVacum 0 (sortData df)) := by
      have hmap : List.Pairwise (fun a b : Int => a < b)
          ((sortData df).map (fun t => t.data)) := List.pairwise_map.mpr hs
      rw [← cumsumColD_map_data col_gmv colGMVacum 0 (sortData df)] at hmap
      exact List.pairwise_map.mp hmap
    intro r hr
    constructor
    · have hf : (cumsumColD col_cash colCashAcum 0
            (cumsumColD col_gmv colGMVacum 0 (sortData df))).map (fun t => t.data) =
          (cumsumColD col_gmv colGMVacum 0 (sortData df)).map (fun t => t.data) :=
        cumsumColD_map_data _ _ _ _
      have hg : (cumsumColD col_cash colCashAcum 0
            (cumsumColD col_gmv colGMVacum 0 (sortData df))).map
              (fun t => getCol t colGMVacum) =
          (cumsumColD col_gmv colGMVacum 0 (sortData df)).map (fun t => getCol t colGMVacum) :=
        cumsumColD_map_getCol _ _ _ (by decide) _ _
      obtain ⟨r2, hr2, hdata, hgmv⟩ := mem_transfer _ _ _ _ hf hg r hr
      have hval := cumsumColD_val col_gmv colGMVacum (sortData df) hs 0 r2 hr2
      have hperm : sumColA ((sortData df).filter (fun x => x.data ≤ r2.data)) col_gmv =
          sumColA (df.filter (fun x => x.data ≤ r2.data)) col_gmv :=
        sumColA_perm _ ((sortData_perm df).filter _)
      rw [hgmv, hval, zero_add, hdata, hperm]
    · have hval := cumsumColD_val col_cash colCashAcum
        (cumsumColD col_gmv colGMVacum 0 (sortData df)) hs1 0 r hr
      have htr : sumColA ((cumsumColD col_gmv colGMVacum 0 (sortData df)).filter
            (fun x => x.data ≤ r.data)) col_cash =
          sumColA ((sortData df).filter (fun x => x.data ≤ r.data)) col_cash :=
        sumColA_filter_transfer _ _ _ _ (cumsumColD_map_data _ _ _ _)
          (cumsumColD_map_getCol _ _ _ hcc _ _)
      have hperm : sumColA ((sortData df).filter (fun x => x.data ≤ r.data)) col_cash =
          sumColA (df.filter (fun x => x.data ≤ r.data)) col_cash :=
        sumColA_perm _ ((sortData_perm df).filter _)
      rw [hval, zero_add, htr, hperm]

/-- Witness for C5 at the concrete table aggW, read at the day-1 row: the
accumulated GMV is the sum of both days and the accumulated Cash is 4 plus
the negative day-1 Cash. -/
theorem C5_witness :
    getCol { data := 1, cols := [(colGMVvalor, 2), (colCashValor, -5),
        (colGMVacum, 5), (colCashAcum, -1)] } colGMVacum =
      some (sumColA (aggW.filter (fun x => x.data ≤
        ({ data := 1, cols := [(colGMVvalor, 2), (colCashValor, -5),
          (colGMVacum, 5), (colCashAcum, -1)] } : ARow).data)) colGMVvalor) ∧
    getCol { data := 1, cols := [(colGMVvalor, 2), (colCashValor, -5),
        (colGMVacum, 5), (colCashAcum, -1)] } colCashAcum =
      some (sumColA (aggW.filter (fun x => x.data ≤
        ({ data := 1, cols := [(colGMVvalor, 2), (colCashValor, -5),
          (colGMVacum, 5), (colCashAcum, -1)] } : ARow).data)) colCashValor) := by
  have h := C5_acumulado_exato aggW colGMVvalor colCashValor _ (by decide) (by decide) aggW_eval
  exact h _ (List.mem_cons_of_mem _ (List.mem_singleton.mpr rfl))

/-- Claim C10 (confirmed): the Cumulative Transformer only reorders the rows
ascending by date and adds the two accumulated columns: the output dates
coincide positionwise with the date-sorted input, the sorted input is a
permutation of the input, and every column other than GMV_acumulado and
Cash_acumulado is preserved positionwise. -/
theorem C10_transformar_frame (df : List ARow) (col_gmv col_cash : String) (out : List ARow)
    (h : transformar_em_acumulado df col_gmv col_cash = some out) :
    List.Perm (sortData df) df ∧
    List.Pairwise (fun a b : ARow => a.data ≤ b.data) (sortData df) ∧
    out.map (fun r => r.data) = (sortData df).map (fun r => r.data) ∧
    ∀ c, c ≠ colGMVacum → c ≠ colCashAcum →
      out.map (fun r => getCol r c) = (sortData df).map (fun r => getCol r c) := by
  unfold transformar_em_acumulado at h
  split_ifs at h with h1 h2
  · have hout := Option.some.inj h
    subst hout
    refine ⟨sortData_perm df, sortData_sorted df, ?_, ?_⟩
    · rw [cumsumColD_map_data, cumsumColD_map_data]
    · intro c hc1 hc2
      rw [cumsumColD_map_getCol _ _ _ hc2, cumsumColD_map_getCol _ _ _ hc1]

/-- Witness for C10 at the concrete table aggW: output dates equal those of
the sorted input and the GMV_valor column is preserved. -/
theorem C10_witness :
    ([{ data := 0, cols := [(colGMVvalor, 3), (colCashValor, 4),
          (colGMVacum, 3), (colCashAcum, 4)] },
      { data := 1, cols := [(colGMVvalor, 2), (colCashValor, -5),
          (colGMVacum, 5), (colCashAcum, -1)] }] : List ARow).map (fun r => r.data) =
      (sortData aggW).map (fun r => r.data) ∧
    ([{ data := 0, cols := [(colGMVvalor, 3), (colCashValor, 4),
          (colGMVacum, 3), (colCashAcum, 4)] },
      { data := 1, cols := [(colGMVvalor, 2), (colCashValor, -5),
          (colGMVacum, 5), (colCashAcum, -1)] }] : List ARow).map (fun r => getCol r colGMVvalor) =
      (sortData aggW).map (fun r => getCol r colGMVvalor) := by
  have h := C10_transformar_frame aggW colGMVvalor colCashValor _ aggW_eval
  exact ⟨h.2.2.1, h.2.2.2 colGMVvalor (by decide) (by decide)⟩

/-! Pointwise and summed values of the Target Dilution passes. -/

theorem metaGmvPass_meta_zero (df : List ARow) (m : ℚ)
    (hz : sumColA df colGMVbaseline = 0) :
    ∀ r2 ∈ metaGmvPass df m, getCol r2 colGMVmeta = some 0 := by
  intro r2 hr2
  unfold metaGmvPass at hr2
  rw [if_pos hz] at hr2
  obtain ⟨r, _, hre⟩ := List.mem_map.mp hr2
  subst hre
  exact getCol_setCol_self r colGMVmeta 0

theorem metaGmvPass_meta (df : List ARow) (m : ℚ)
    (hz : ¬ sumColA df colGMVbaseline = 0) :
    ∀ r2 ∈ metaGmvPass df m,
      getCol r2 colGMVmeta =
        some (m * ((getCol r2 colGMVbaseline).getD 0 / sumColA df colGMVbaseline)) := by
  intro r2 hr2
  unfold metaGmvPass at hr2
  rw [if_neg hz] at hr2
  obtain ⟨r, _, hre⟩ := List.mem_map.mp hr2
  subst hre
  rw [getCol_setCol_self, getCol_setCol_ne _ _ _ (by decide),
    getCol_setCol_ne _ _ _ (by decide)]

theorem metaCashPass_meta_zero (df : List ARow) (m : ℚ)
    (hz : sumColA df colCashBaseline = 0) :
    ∀ r2 ∈ metaCashPass df m, getCol r2 colCashMeta = some 0 := by
  intro r2 hr2
  unfold metaCashPass at hr2
  rw [if_pos hz] at hr2
  obtain ⟨r, _, hre⟩ := List.mem_map.mp hr2
  subst hre
  exact getCol_setCol_self r colCashMeta 0

theorem metaCashPass_meta (df : List ARow) (m : ℚ)
    (hz : ¬ sumColA df colCashBaseline = 0) :
    ∀ r2 ∈ metaCashPass df m,
      getCol r2 colCashMeta =
        some (m * ((getCol r2 colCashBaseline).getD 0 / sumColA df colCashBaseline)) := by
  intro r2 hr2
  unfold metaCashPass at hr2
  rw [if_neg hz] at hr2
  obtain ⟨r, _, hre⟩ := List.mem_map.mp hr2
  subst hre
  rw [getCol_setCol_self, getCol_setCol_ne _ _ _ (by decide),
    getCol_setCol_ne _ _ _ (by decide)]

theorem metaGmvPass_sum (df : List ARow) (m : ℚ)
    (hz : ¬ sumColA df colGMVbaseline = 0) :
    sumColA (metaGmvPass df m) colGMVmeta = m := by
  unfold metaGmvPass
  rw [if_neg hz]
  set T := sumColA df colGMVbaseline with hT
  unfold sumColA
  rw [List.map_map]
  have hpt : ∀ r ∈ df,
      ((fun r => (getCol r colGMVmeta).getD 0) ∘ (fun r =>
        setCol (setCol r colPesoGMV ((getCol r colGMVbaseline).getD 0 / T))
          colGMVmeta (m * ((getCol r colGMVbaseline).getD 0 / T)))) r =
      (m * T⁻¹) * (getCol r colGMVbaseline).getD 0 := by
    intro r _
    show ((getCol (setCol _ colGMVmeta _) colGMVmeta).getD 0) = _
    rw [getCol_setCol_self]
    show m * ((getCol r colGMVbaseline).getD 0 / T) = _
    rw [div_eq_mul_inv]
    ring
  rw [List.map_congr_left hpt, List.sum_map_mul_left]
  have hsum : (df.map (fun r => (getCol r colGMVbaseline).getD 0)).sum = T := by
    rw [hT]
    rfl
  rw [hsum, mul_assoc, inv_mul_cancel₀ hz, mul_one]

theorem metaCashPass_sum (df : List ARow) (m : ℚ)
    (hz : ¬ sumColA df colCashBaseline = 0) :
    sumColA (metaCashPass df m) colCashMeta = m := by
  unfold metaCashPass
  rw [if_neg hz]
  set T := sumColA df colCashBaseline with hT
  unfold sumColA
  rw [List.map_map]
  have hpt : ∀ r ∈ df,
      ((fun r => (getCol r colCashMeta).getD 0) ∘ (fun r =>
        setCol (setCol r colPesoCash ((getCol r colCashBaseline).getD 0 / T))
          colCashMeta (m * ((getCol r colCashBaseline).getD 0 / T)))) r =
      (m * T⁻¹) * (getCol r colCashBaseline).getD 0 := by
    intro r _
    show ((getCol (setCol _ colCashMeta _) colCashMeta).getD 0) = _
    rw [getCol_setCol_self]
    show m * ((getCol r colCashBaseline).getD 0 / T) = _
    rw [div_eq_mul_inv]
    ring
  rw [List.map_congr_left hpt, List.sum_map_mul_left]
  have hsum : (df.map (fun r => (getCol r colCashBaseline).getD 0)).sum = T := by
    rw [hT]
    rfl
  rw [hsum, mul_assoc, inv_mul_cancel₀ hz, mul_one]

/-- Rows of the final sort-and-accumulate stage of the Target Dilution Engine
correspond to rows of its input with every non-accumulated column intact. -/
theorem meta_out_transfer (df2 : List ARow) (c1 c2 : String)
    (h11 : c1 ≠ colGMVmetaAcum) (h12 : c1 ≠ colCashMetaAcum)
    (h21 : c2 ≠ colGMVmetaAcum) (h22 : c2 ≠ colCashMetaAcum) :
    ∀ r ∈ cumsumColD colCashMeta colCashMetaAcum 0
        (cumsumColD colGMVmeta colGMVmetaAcum 0 (sortData df2)),
      ∃ r2 ∈ df2, getCol r c1 = getCol r2 c1 ∧ getCol r c2 = getCol r2 c2 := by
  intro r hr
  have hf : (cumsumColD colCashMeta colCashMetaAcum 0
        (cumsumColD colGMVmeta colGMVmetaAcum 0 (sortData df2))).map (fun t => getCol t c1) =
      (sortData df2).map (fun t => getCol t c1) := by
    rw [cumsumColD_map_getCol _ _ _ h12, cumsumColD_map_getCol _ _ _ h11]
  have hg : (cumsumColD colCashMeta colCashMetaAcum 0
        (cumsumColD colGMVmeta colGMVmetaAcum 0 (sortData df2))).map (fun t => getCol t c2) =
      (sortData df2).map (fun t => getCol t c2) := by
    rw [cumsumColD_map_getCol _ _ _ h22, cumsumColD_map_getCol _ _ _ h21]
  obtain ⟨r2, hr2, e1, e2⟩ := mem_transfer _ _ _ _ hf hg r hr
  exact ⟨r2, (sortData_perm df2).mem_iff.mp hr2, e1, e2⟩

/-- Column sums are unchanged by the final sort-and-accumulate stage of the
Target Dilution Engine, for non-accumulated columns. -/
theorem meta_out_sum (df2 : List ARow) (c : String)
    (h1 : c ≠ colGMVmetaAcum) (h2 : c ≠ colCashMetaAcum) :
    sumColA (cumsumColD colCashMeta colCashMetaAcum 0
      (cumsumColD colGMVmeta colGMVmetaAcum 0 (sortData df2))) c = sumColA df2 c := by
  have hf : (cumsumColD colCashMeta colCashMetaAcum 0
        (cumsumColD colGMVmeta colGMVmetaAcum 0 (sortData df2))).map (fun t => getCol t c) =
      (sortData df2).map (fun t => getCol t c) := by
    rw [cumsumColD_map_getCol _ _ _ h2, cumsumColD_map_getCol _ _ _ h1]
  rw [sumColA_eq_of_map _ hf]
  exact sumColA_perm _ (sortData_perm df2)

/-- Claim C6 (confirmed): on an aggregate table holding both baseline columns
the Target Dilution Engine raises no error, and for each metric: when the
total baseline sum is zero every per-date diluted target is zero; otherwise
every per-date diluted target equals the period target times that date
baseline share of the total, and hence the diluted targets over the whole
table sum exactly to the period target. -/
theorem C6_meta_diluida (df_agg : List ARow) (meta_gmv meta_cash : ℚ)
    (hg : hasColA df_agg colGMVbaseline = true)
    (hc : hasColA df_agg colCashBaseline = true) :
    ∃ out, calcular_meta_diluida df_agg meta_gmv meta_cash = some out ∧
      ((sumColA df_agg colGMVbaseline = 0 →
          ∀ r ∈ out, getCol r colGMVmeta = some 0) ∧
       (sumColA df_agg colGMVbaseline ≠ 0 →
          (∀ r ∈ out, getCol r colGMVmeta =
            some (meta_gmv *
              ((getCol r colGMVbaseline).getD 0 / sumColA df_agg colGMVbaseline))) ∧
          sumColA out colGMVmeta = meta_gmv)) ∧
      ((sumColA df_agg colCashBaseline = 0 →
          ∀ r ∈ out, getCol r colCashMeta = some 0) ∧
       (sumColA df_agg colCashBaseline ≠ 0 →
          (∀ r ∈ out, getCol r colCashMeta =
            some (meta_cash *
              ((getCol r colCashBaseline).getD 0 / sumColA df_agg colCashBaseline))) ∧
          sumColA out colCashMeta = meta_cash)) := by
  have hmapCashBase1 : (metaGmvPass df_agg meta_gmv).map (fun r => getCol r colCashBaseline) =
      df_agg.map (fun r => getCol r colCashBaseline) :=
    metaGmvPass_map_getCol df_agg meta_gmv colCashBaseline (by decide) (by decide)
  have hTcash : sumColA (metaGmvPass df_agg meta_gmv) colCashBaseline =
      sumColA df_agg colCashBaseline := sumColA_eq_of_map _ hmapCashBase1
  have hc1 : hasColA (metaGmvPass df_agg meta_gmv) colCashBaseline = true := by
    rw [hasColA_eq_of_map _ hmapCashBase1]
    exact hc
  have hmapB2gm : (metaCashPass (metaGmvPass df_agg meta_gmv) meta_cash).map
        (fun r => getCol r colGMVmeta) =
      (metaGmvPass df_agg meta_gmv).map (fun r => getCol r colGMVmeta) :=
    metaCashPass_map_getCol _ _ _ (by decide) (by decide)
  have hmapB2gb : (metaCashPass (metaGmvPass df_agg meta_gmv) meta_cash).map
        (fun r => getCol r colGMVbaseline) =
      (metaGmvPass df_agg meta_gmv).map (fun r => getCol r colGMVbaseline) :=
    metaCashPass_map_getCol _ _ _ (by decide) (by decide)
  have hcalc : calcular_meta_diluida df_agg meta_gmv meta_cash =
      some (cumsumColD colCashMeta colCashMetaAcum 0
        (cumsumColD colGMVmeta colGMVmetaAcum 0
          (sortData (metaCashPass (metaGmvPass df_agg meta_gmv) meta_cash)))) := by
    unfold calcular_meta_diluida
    rw [if_pos hg, if_pos hc1]
  refine ⟨_, hcalc, ⟨?_, ?_⟩, ⟨?_, ?_⟩⟩
  · intro hz r hr
    obtain ⟨r2, hr2, e1, _⟩ := meta_out_transfer _ colGMVmeta colGMVmeta
      (by decide) (by decide) (by decide) (by decide) r hr
    obtain ⟨r1, hr1, e3, _⟩ := mem_transfer _ _ _ _ hmapB2gm hmapB2gm r2 hr2
    rw [e1, e3]
    exact metaGmvPass_meta_zero df_agg meta_gmv hz r1 hr1
  · intro hz
    constructor
    · intro r hr
      obtain ⟨r2, hr2, e1, e2⟩ := meta_out_transfer _ colGMVmeta colGMVbaseline
        (by decide) (by decide) (by decide) (by decide) r hr
      obtain ⟨r1, hr1, e3, e4⟩ := mem_transfer _ _ _ _ hmapB2gm hmapB2gb r2 hr2
      rw [e1, e3, e2, e4]
      exact metaGmvPass_meta df_agg meta_gmv hz r1 hr1
    · rw [meta_out_sum _ colGMVmeta (by decide) (by decide),
        sumColA_eq_of_map _ hmapB2gm]
      exact metaGmvPass_sum df_agg meta_gmv hz
  · intro hz r hr
    obtain ⟨r2, hr2, e1, _⟩ := meta_out_transfer _ colCashMeta colCashMeta
      (by decide) (by decide) (by decide) (by decide) r hr
    rw [e1]
    exact metaCashPass_meta_zero _ meta_cash (by rw [hTcash]; exact hz) r2 hr2
  · intro hz
    have hz1 : ¬ sumColA (metaGmvPass df_agg meta_gmv) colCashBaseline = 0 := by
      rw [hTcash]
      exact hz
    constructor
    · intro r hr
      obtain ⟨r2, hr2, e1, e2⟩ := meta_out_transfer _ colCashMeta colCashBaseline
        (by decide) (by decide) (by decide) (by decide) r hr
      have hv := metaCashPass_meta _ meta_cash hz1 r2 hr2
      rw [hTcash] at hv
      rw [e1, e2]
      exact hv
    · rw [meta_out_sum _ colCashMeta (by decide) (by decide)]
      exact metaCashPass_sum _ meta_cash hz1

theorem ne_gb_cb : colGMVbaseline ≠ colCashBaseline := by decide

/-- Witness for C6 at the concrete table aggM: the total GMV baseline is 4, so
the diluted GMV targets sum to the full target 8; the total Cash baseline is
0, so every diluted Cash target is zero and no error is raised. -/
theorem C6_witness :
    (calcular_meta_diluida aggM 8 3).isSome = true ∧
    (calcular_meta_diluida aggM 8 3).map (fun out => sumColA out colGMVmeta) = some 8 ∧
    (calcular_meta_diluida aggM 8 3).map
      (fun out => out.all (fun r => decide (getCol r colCashMeta = some 0))) = some true := by
  obtain ⟨out, hout, hgmv, hcash⟩ := C6_meta_diluida aggM 8 3 (by decide) (by decide)
  have hTg : sumColA aggM colGMVbaseline ≠ 0 := by
    norm_num [sumColA, aggM, getCol, getColList, ne_gb_cb]
  have hTc : sumColA aggM colCashBaseline = 0 := by
    norm_num [sumColA, aggM, getCol, getColList, ne_gb_cb]
  refine ⟨by rw [hout]; rfl, ?_, ?_⟩
  · rw [hout, Option.map_some']
    exact congrArg some ((hgmv.2 hTg).2)
  · rw [hout, Option.map_some']
    refine congrArg some ?_
    rw [List.all_eq_true]
    intro r hr
    rw [decide_eq_true_eq]
    exact hcash.1 hTc r hr

/-! Lemmas for the anchor of the Alignment Engine. -/

theorem lastAcum_mem : ∀ (l : List SRow), l ≠ [] → ∃ r ∈ l, lastAcum l = r.acum := by
  intro l
  induction l with
  | nil => intro h; exact absurd rfl h
  | cons x xs ih =>
    intro _
    cases xs with
    | nil => exact ⟨x, List.mem_singleton.mpr rfl, rfl⟩
    | cons y ys =>
      obtain ⟨r, hr, he⟩ := ih (by simp)
      exact ⟨r, List.mem_cons_of_mem x hr, he⟩

theorem listMax_eq_lastAcum : ∀ (l : List SRow),
    List.Pairwise (fun a b : SRow => a.acum ≤ b.acum) l →
    l ≠ [] → listMax (l.map (fun r => r.acum)) = lastAcum l := by
  intro l
  induction l with
  | nil => intro _ h; exact absurd rfl h
  | cons x xs ih =>
    intro hmono _
    cases xs with
    | nil => rfl
    | cons y ys =>
      rw [List.pairwise_cons] at hmono
      have hrec := ih hmono.2 (by simp)
      have hstep : listMax ((x :: y :: ys).map (fun r => r.acum)) =
          max x.acum (listMax ((y :: ys).map (fun r => r.acum))) := rfl
      have hlast : lastAcum (x :: y :: ys) = lastAcum (y :: ys) := rfl
      rw [hstep, hlast, hrec]
      obtain ⟨r, hr, he⟩ := lastAcum_mem (y :: ys) (by simp)
      rw [he]
      exact max_eq_right (hmono.1 r hr)

/-- Claim C1 counterexample: a baseline cumulative Cash series produced by the
Cumulative Transformer from per-day Cash values 100 and -50 has anchor 100
(the running maximum) while its accumulated value at the latest date before
the window is 50, so the two notions differ on negative Cash. -/
theorem C1_counterexample :
    (transformar_em_acumulado aggNeg colGMVvalor colCashValor).map
        (fun out => toSerie out colCashAcum) = some serieNeg ∧
    base_cutoff_val serieNeg 2 = 100 ∧
    acum_ate_janela serieNeg 2 = 50 ∧
    base_cutoff_val serieNeg 2 ≠ acum_ate_janela serieNeg 2 := by
  refine ⟨?_, ?_, ?_, ?_⟩
  · norm_num [transformar_em_acumulado, hasColA, sortData, dataLe, List.insertionSort,
      List.orderedInsert, cumsumColD, getCol, setCol, getColList, setColList, aggNeg,
      toSerie, serieNeg, ne_gv_cv, ne_gv_ga, ne_cv_ga, ne_gv_ca, ne_cv_ca, ne_ga_ca]
  · norm_num [base_cutoff_val, serieNeg, listMax, max_def]
  · norm_num [acum_ate_janela, serieNeg, lastAcum]
  · norm_num [base_cutoff_val, acum_ate_janela, serieNeg, listMax, lastAcum, max_def]

/-- Claim C1 amended: for a date-sorted baseline cumulative series whose
cumulative values are nondecreasing along the series (the case whenever the
per-date values are non-negative, as for GMV), the anchor (the running
maximum before check_start, 0 when nothing precedes the window) equals the
accumulated value at the latest date strictly before check_start; with
negative per-date Cash values the anchor can strictly exceed it. -/
theorem C1_ancora (df_base_acum : List SRow) (check_start : Int)
    (_hsort : List.Pairwise (fun a b : SRow => a.data ≤ b.data) df_base_acum)
    (hmono : List.Pairwise (fun a b : SRow => a.acum ≤ b.acum) df_base_acum) :
    base_cutoff_val df_base_acum check_start = acum_ate_janela df_base_acum check_start := by
  unfold base_cutoff_val acum_ate_janela
  by_cases he : (df_base_acum.filter (fun r => r.data < check_start)).isEmpty
  · rw [if_pos he]
    rw [List.isEmpty_iff] at he
    rw [he]
    rfl
  · rw [if_neg he]
    refine listMax_eq_lastAcum _ (hmono.filter _) ?_
    intro hnil
    exact he (List.isEmpty_iff.mpr hnil)

/-- Witness for the amended C1 on a concrete monotone series: both the anchor
and the accumulated value at the latest prior date are 30. -/
theorem C1_witness :
    base_cutoff_val serieMono 5 = acum_ate_janela serieMono 5 ∧
    acum_ate_janela serieMono 5 = 30 := by
  constructor
  · exact C1_ancora serieMono 5 (by norm_num [List.pairwise_cons, serieMono])
      (by norm_num [List.pairwise_cons, serieMono])
  · norm_num [acum_ate_janela, serieMono, lastAcum]

/-- Claim C4 (confirmed): with a non-empty cancellation set and a non-empty
simulated window, the first displayed simulated point carries exactly the
anchor value at the first window date, since the first window row offset from
itself is zero; and for a date-sorted simulated series the first window row
has the earliest date at or after check_start. -/
theorem C4_ancoragem (df_base_acum df_sim_acum : List SRow) (check_start : Int)
    (rotas_canceladas : List String) (r0 : SRow) (rest : List SRow)
    (hc : rotas_canceladas ≠ [])
    (hw : sim_window df_sim_acum check_start = r0 :: rest)
    (hsort : List.Pairwise (fun a b : SRow => a.data ≤ b.data) df_sim_acum) :
    (acumulado_alinhado df_base_acum df_sim_acum check_start rotas_canceladas).head? =
      some (r0.data, base_cutoff_val df_base_acum check_start) ∧
    ∀ r ∈ sim_window df_sim_acum check_start, r0.data ≤ r.data := by
  have hne : rotas_canceladas.isEmpty = false := by
    cases rotas_canceladas with
    | nil => exact absurd rfl hc
    | cons => rfl
  constructor
  · unfold acumulado_alinhado
    rw [if_neg (by rw [hne]; exact Bool.false_ne_true), hw]
    simp only [List.map_cons, List.head?_cons]
    rw [sub_self, add_zero]
  · intro r hr
    rw [hw] at hr
    have hpair : List.Pairwise (fun a b : SRow => a.data ≤ b.data) (r0 :: rest) := by
      have hf := hsort.filter (fun r => decide (check_start ≤ r.data))
      unfold sim_window at hw
      rw [hw] at hf
      exact hf
    rcases List.mem_cons.mp hr with h | h
    · rw [h]
    · exact (List.pairwise_cons.mp hpair).1 r h

/-- Witness for C4 on concrete series: the displayed simulated line starts at
the first window date with exactly the anchor value. -/
theorem C4_witness :
    (acumulado_alinhado serieBaseW serieSimW 1 [rotaR1]).head? =
      some ((⟨1, 15⟩ : SRow).data, base_cutoff_val serieBaseW 1) ∧
    base_cutoff_val serieBaseW 1 = 10 := by
  constructor
  · exact (C4_ancoragem serieBaseW serieSimW 1 [rotaR1] ⟨1, 15⟩ [⟨2, 18⟩]
      (by decide) (by simp [sim_window, serieSimW])
      (by norm_num [List.pairwise_cons, serieSimW])).1
  · norm_num [base_cutoff_val, serieBaseW, listMax, max_def]

/-! Lemmas for the divergence pipeline. -/

theorem diff_acum_filter (df_base_acum df_sim_acum : List SRow) (cutoff check_start : Int)
    (hlt : cutoff < check_start) :
    (diff_acum df_base_acum df_sim_acum cutoff).filter (fun r => check_start ≤ r.data) =
      (df_base_acum.filter (fun r => check_start ≤ r.data)).map (fun r =>
        { data := r.data, acum := r.acum,
          acum_sim := lookupAcum (df_sim_acum.filter (fun r2 => cutoff < r2.data)) r.data,
          diferenca := (lookupAcum (df_sim_acum.filter (fun r2 => cutoff < r2.data)) r.data).map
            (fun v => v - r.acum) }) := by
  unfold diff_acum
  induction df_base_acum with
  | nil => rfl
  | cons x xs ih =>
    by_cases h1 : check_start ≤ x.data
    · have h2 : cutoff < x.data := by omega
      rw [List.filter_cons_of_pos (by simpa using h2), List.map_cons,
        List.filter_cons_of_pos (by simpa using h1),
        List.filter_cons_of_pos (by simpa using h1), List.map_cons, ih]
    · by_cases h2 : cutoff < x.data
      · rw [List.filter_cons_of_pos (by simpa using h2), List.map_cons,
          List.filter_cons_of_neg (by simpa using h1),
          List.filter_cons_of_neg (by simpa using h1), ih]
      · rw [List.filter_cons_of_neg (by simpa using h2),
          List.filter_cons_of_neg (by simpa using h1), ih]

theorem lookupAcum_none (df_sim_acum : List SRow) (cutoff check_start d : Int)
    (hd : check_start ≤ d)
    (hempty : sim_window df_sim_acum check_start = []) :
    lookupAcum (df_sim_acum.filter (fun r2 => cutoff < r2.data)) d = none := by
  unfold lookupAcum
  have hfind : (df_sim_acum.filter (fun r2 => cutoff < r2.data)).find?
      (fun r => r.data = d) = none := by
    rw [List.find?_eq_none]
    intro x hx hpx
    rw [decide_eq_true_eq] at hpx
    have hxw : x ∈ sim_window df_sim_acum check_start := by
      unfold sim_window
      refine List.mem_filter.mpr ⟨List.mem_of_mem_filter hx, ?_⟩
      rw [decide_eq_true_eq, hpx]
      exact hd
    rw [hempty] at hxw
    exact absurd hxw (List.not_mem_nil x)
  rw [hfind]
  rfl

theorem alinhado_empty (df_base_acum df_sim_acum : List SRow) (check_start : Int)
    (rotas_canceladas : List String)
    (h : sim_window df_sim_acum check_start = []) :
    acumulado_alinhado df_base_acum df_sim_acum check_start rotas_canceladas = [] := by
  unfold acumulado_alinhado
  by_cases hc : rotas_canceladas.isEmpty
  · rw [if_pos hc, h]
    rfl
  · rw [if_neg hc, h]

/-- Claim C8 (confirmed): when the cutover precedes check_start and baseline
dates are distinct, the end-to-end divergence series has exactly one row per
baseline date at or after check_start, whose value is the displayed simulated
value at that date minus the baseline cumulative value when the displayed
series carries the date, and is absent (none, the NaN of the unmatched left
join) when it does not, never a fabricated zero. -/
theorem C8_divergencia (df_base_acum df_sim_acum : List SRow) (cutoff check_start : Int)
    (rotas_canceladas : List String)
    (hlt : cutoff < check_start)
    (hnd : (df_base_acum.map (fun r => r.data)).Nodup) :
    divergencia df_base_acum df_sim_acum cutoff check_start rotas_canceladas =
      (df_base_acum.filter (fun r => check_start ≤ r.data)).map (fun r =>
        (r.data,
          (lookupAlinhado (acumulado_alinhado df_base_acum df_sim_acum check_start
            rotas_canceladas) r.data).map (fun a => a - r.acum))) ∧
    ((divergencia df_base_acum df_sim_acum cutoff check_start rotas_canceladas).map
      Prod.fst).Nodup := by
  have hdc := diff_acum_filter df_base_acum df_sim_acum cutoff check_start hlt
  have hmain : divergencia df_base_acum df_sim_acum cutoff check_start rotas_canceladas =
      (df_base_acum.filter (fun r => check_start ≤ r.data)).map (fun r =>
        (r.data,
          (lookupAlinhado (acumulado_alinhado df_base_acum df_sim_acum check_start
            rotas_canceladas) r.data).map (fun a => a - r.acum))) := by
    unfold divergencia diferenca_alinhada
    rw [hdc]
    split_ifs with hcond
    · rw [List.map_map]
      apply List.map_congr_left
      intro r _
      rfl
    · by_cases hb : (df_base_acum.filter (fun r => check_start ≤ r.data)) = []
      · rw [hb]
        simp
      · have hs : sim_window df_sim_acum check_start = [] := by
          by_contra hs
          apply hcond
          rw [Bool.and_eq_true, Bool.not_eq_true', Bool.not_eq_true']
          constructor
          · rw [Bool.eq_false_iff]
            intro hmape
            rw [List.isEmpty_iff, List.map_eq_nil_iff] at hmape
            exact hb hmape
          · rw [Bool.eq_false_iff]
            intro hwe
            rw [List.isEmpty_iff] at hwe
            exact hs hwe
        rw [alinhado_empty _ _ _ _ hs, List.map_map]
        apply List.map_congr_left
        intro r hr
        have hd : check_start ≤ r.data := by simpa using (List.mem_filter.mp hr).2
        have hnone := lookupAcum_none df_sim_acum cutoff check_start r.data hd hs
        show (r.data, ((lookupAcum (df_sim_acum.filter
          (fun r2 => cutoff < r2.data)) r.data).map (fun v => v - r.acum))) = _
        rw [hnone]
        rfl
  refine ⟨hmain, ?_⟩
  rw [hmain, List.map_map]
  show ((df_base_acum.filter (fun r => check_start ≤ r.data)).map (fun r => r.data)).Nodup
  exact hnd.sublist ((List.filter_sublist _).map _)

/-- Witness for C8 on concrete series: the divergence dates are exactly the
baseline window dates, without duplicates. -/
theorem C8_witness :
    ((divergencia serieBaseW serieSimW 0 1 [rotaR1]).map Prod.fst).Nodup :=
  (C8_divergencia serieBaseW serieSimW 0 1 [rotaR1] (by decide) (by decide)).2
